import Mathlib

/-!
Verification of the vib-OS asset-preparation pipeline (kernel/media).

The development shallowly embeds the Python sources:
  * `generate_image_assets.py` — the Asset Embedder (`generate_header`, `main`);
  * `convert_to_baseline.py`   — the Conformance Normalizer conversion loop;
  * `create_baseline_jpegs.py` — the Synthetic Image Generator
    (`create_gradient_image`, `create_pattern_image`, `save_baseline_jpeg`).

Pure Python code is embedded as Lean functions; the filesystem is an explicit
map `String → Option (List Nat)`; fallible paths return `Option`/`Except`.
Python float arithmetic in the gradient generator is embedded exactly: every
float value is the rational it represents, and every float operation is the
exact rational operation followed by `rnd53`, IEEE-754 binary64 rounding to
nearest with ties to even (with unbounded exponent, so the embedding is exact
on the binary64 normal range, which covers all operations in the theorems
below); Python `int(·)` is truncation toward zero.  Behaviour of the external
imaging library (PIL) that the repository calls but does not contain is
modelled from the specification, and those definitions are marked
`Modelled from the spec:`.
-/

namespace VibOS

/-- An RGB colour triple, as the Python 3-tuples of ints used by the
generators. -/
structure RGB where
  r : Int
  g : Int
  b : Int
deriving DecidableEq, Repr

/-- Channels of an RGB triple all lie in [0, 255]. -/
def RGB.inRange (c : RGB) : Prop :=
  0 ≤ c.r ∧ c.r ≤ 255 ∧ 0 ≤ c.g ∧ c.g ≤ 255 ∧ 0 ≤ c.b ∧ c.b ≤ 255

instance (c : RGB) : Decidable c.inRange := by
  unfold RGB.inRange; infer_instance

/-! ## Asset Embedder — `generate_image_assets.py` -/

/-- One lowercase hex digit, as produced by Python `format(b, "02x")`. -/
def hexDigit (n : Nat) : Char :=
  if n < 10 then Char.ofNat (48 + n) else Char.ofNat (87 + n)

/-- Two-digit lowercase hex rendering of a byte, Python `f"0x{b:02x}"` without
the `0x`. -/
def hex2 (b : Nat) : String :=
  String.mk [hexDigit (b / 16 % 16), hexDigit (b % 16)]

/-- `os.path.basename`: the final component of a slash-separated path — the
characters after the last slash (char code 47). -/
def basename (p : String) : String :=
  String.mk (p.data.foldl (fun acc c => if c = Char.ofNat 47 then [] else acc ++ [c]) [])

/-- `os.path.join` for the non-empty relative paths used by `main`. -/
def joinPath (a b : String) : String :=
  a ++ "/" ++ b

/-- Structural worker for `chunks16`; the fuel only bounds the number of loop
iterations (any fuel at least the list length is exact), keeping the
definition kernel-computable. -/
def chunks16Go : Nat → List Nat → List (List Nat)
  | _, [] => []
  | 0, _ => []
  | fuel + 1, l => l.take 16 :: chunks16Go fuel (l.drop 16)

/-- The row chunking of `generate_header`: `for i in range(0, len(data), 16):
chunk = data[i:i+16]`. -/
def chunks16 (l : List Nat) : List (List Nat) :=
  chunks16Go l.length l

/-- The sequence of `f.write` calls of `generate_header`, as a structured
artifact: the source file's base name (header comment), the array name, the
byte rows, and the emitted length constant. -/
structure CHeader where
  sourceBase : String
  varName : String
  rows : List (List Nat)
  lenConst : Nat
deriving DecidableEq, Repr

/-- One array row: Python `f"    {hex_str},\n"` with
`hex_str = ", ".join(f"0x{b:02x}" for b in chunk)`. -/
def renderRow (chunk : List Nat) : String :=
  "    " ++ String.intercalate ", " (chunk.map fun b => "0x" ++ hex2 b) ++ ",\n"

/-- The exact text `generate_header` writes to the output file. -/
def render (hdr : CHeader) : String :=
  "/* Auto-generated from " ++ hdr.sourceBase ++ " */\n" ++
  "const unsigned char " ++ hdr.varName ++ "[] = \x7b\n" ++
  String.join (hdr.rows.map renderRow) ++
  "\x7d;\n\n" ++
  "const unsigned int " ++ hdr.varName ++ "_len = " ++ toString hdr.lenConst ++ ";\n"

/-- `generate_header(input_file, output_file, var_name)`: reads the bytes of
`input_file` from the filesystem `fs`, and produces the declaration with the
bytes chunked in rows of 16 and the length constant `len(data)`.  `none` when
the file cannot be read. -/
def generate_header (fs : String → Option (List Nat)) (input_file var_name : String) :
    Option CHeader :=
  (fs input_file).map fun data =>
    { sourceBase := basename input_file
      varName := var_name
      rows := chunks16 data
      lenConst := data.length }

/-- Outcome of processing one asset in `main`: either the generated output
file (path and text), or the report that the source asset was not found (the
code prints `Warning: {path} not found` and moves on — the spec's
`SourceNotFound`). -/
inductive AssetResult where
  | generated (outputPath : String) (text : String)
  | sourceNotFound (inputPath : String)
deriving DecidableEq, Repr

/-- True exactly on the success outcome. -/
def AssetResult.isGenerated : AssetResult → Bool
  | .generated _ _ => true
  | .sourceNotFound _ => false

/-- The body of `main`'s loop for a single `(img_file, var_name)` pair:
`os.path.exists` then `generate_header`, else the warning. -/
def processAsset (fs : String → Option (List Nat)) (imagesDir outputDir : String)
    (asset : String × String) : AssetResult :=
  let inputPath := joinPath imagesDir asset.1
  match generate_header fs inputPath asset.2 with
  | some hdr => .generated (joinPath outputDir (asset.2 ++ ".c")) (render hdr)
  | none => .sourceNotFound inputPath

/-- `main` of `generate_image_assets.py`, over an explicit batch of
`(img_file, var_name)` pairs (the hardcoded list is the external caller's
data per the spec's scope). -/
def main (fs : String → Option (List Nat)) (imagesDir outputDir : String)
    (images : List (String × String)) : List AssetResult :=
  images.map (processAsset fs imagesDir outputDir)

/-! ## Synthetic Image Generator — `create_baseline_jpegs.py` -/

/-- Python `int(·)` applied to a real value: truncation toward zero. -/
def truncInt (q : Rat) : Int :=
  if q < 0 then Int.ceil q else Int.floor q

/-- Round a rational to the nearest integer, ties to even — the rounding of
IEEE-754 (and of Python floats) on an exact value scaled to integer
precision. -/
def roundHalfEven (q : Rat) : Int :=
  if q - Int.floor q < 1 / 2 then Int.floor q
  else if (1 / 2 : Rat) < q - Int.floor q then Int.floor q + 1
  else if Int.floor q % 2 = 0 then Int.floor q else Int.floor q + 1

/-- Floor of the base-2 logarithm of a positive rational, computed from the
bit lengths of numerator and denominator (the candidate `k` is off by at most
one, fixed by a single comparison). -/
def ratLog2 (q : Rat) : Int :=
  let k : Int := (Nat.log2 q.num.toNat : Int) - (Nat.log2 q.den : Int)
  if q < (2 : Rat) ^ k then k - 1 else k

/-- Rounding of a positive rational to 53 significant bits: scale into
`[2^52, 2^53)`, round to the nearest integer with ties to even, scale back. -/
def rnd53Pos (q : Rat) : Rat :=
  (roundHalfEven (q * (2 : Rat) ^ (52 - ratLog2 q)) : Rat)
    * (2 : Rat) ^ (-(52 - ratLog2 q))

/-- The IEEE-754 binary64 rounding Python applies after every float
operation: round to nearest, ties to even, 53-bit significand.  The exponent
is unbounded, so this is exact wherever the Python computation neither
overflows nor underflows; every operation in the theorems below stays inside
the binary64 normal range. -/
def rnd53 (q : Rat) : Rat :=
  if q < 0 then -rnd53Pos (-q) else if q = 0 then 0 else rnd53Pos q

/-- `create_gradient_image(width, height, color1, color2, direction)`: for each
pixel, `ratio = x / width` when `direction == "horizontal"` else `y / height`,
and each channel is `int(c1 + (c2 - c1) * ratio)`, all computed in Python
float (binary64) arithmetic: the int/int true division, the int-times-float
multiplication and the int-plus-float addition are each exact followed by one
`rnd53` (the int operands here convert to float exactly whenever they fit in
53 bits, as all in-range channels do).  The image is the row-major pixel grid
(`pixels[x, y]` is row `y`, column `x`). -/
def create_gradient_image (width height : Nat) (color1 color2 : RGB)
    (direction : String) : List (List RGB) :=
  (List.range height).map fun (y : Nat) =>
    (List.range width).map fun (x : Nat) =>
      let ratio : Rat :=
        if direction = "horizontal" then rnd53 ((x : Rat) / (width : Rat))
        else rnd53 ((y : Rat) / (height : Rat))
      { r := truncInt (rnd53 ((color1.r : Rat) + rnd53 (((color2.r : Rat) - (color1.r : Rat)) * ratio)))
        g := truncInt (rnd53 ((color1.g : Rat) + rnd53 (((color2.g : Rat) - (color1.g : Rat)) * ratio)))
        b := truncInt (rnd53 ((color1.b : Rat) + rnd53 (((color2.b : Rat) - (color1.b : Rat)) * ratio))) }

/-- `create_pattern_image(width, height, colors)`: each pixel's colour is
`colors[((x // 40) + (y // 40)) % len(colors)]`.  When `colors` is empty and
at least one pixel is computed, the Python `% len(colors)` raises
`ZeroDivisionError`; that failure is `none` here.  In the `some` branch the
guard guarantees the index is in bounds whenever a pixel exists, so the
`getD` default is never read. -/
def create_pattern_image (width height : Nat) (colors : List RGB) :
    Option (List (List RGB)) :=
  if colors.length = 0 ∧ 0 < width ∧ 0 < height then none
  else
    some ((List.range height).map fun y =>
      (List.range width).map fun x =>
        colors.getD (((x / 40) + (y / 40)) % colors.length) ⟨0, 0, 0⟩)

/-- PIL-style pixel access `pixels[x, y]` on a row-major grid. -/
def pixelAt (img : List (List RGB)) (x y : Nat) (d : RGB) : RGB :=
  (img.getD y []).getD x d

/-! ## Conformance Normalizer — `convert_to_baseline.py` and
`save_baseline_jpeg` of `create_baseline_jpegs.py`.

The actual decoding/encoding is done by the external PIL library, which is
not part of this repository; its behaviour is modelled from the spec. -/

/-- Error kinds of the pipeline (spec §7). -/
inductive NormError where
  | UnsupportedInputFormat
deriving DecidableEq, Repr

/-- Modelled from the spec: a PIL image as the Normalizer sees it — its mode
string and, when the input can be interpreted as RGB pixel data, that data.
`rgbData = none` models e.g. an indexed/palette image without a resolvable
palette. -/
structure PILImage where
  mode : String
  rgbData : Option (List RGB)
deriving DecidableEq, Repr

/-- Modelled from the spec: `img.convert("RGB")` — lossless conversion to RGB
(dropping/ignoring alpha); fails with `UnsupportedInputFormat` when the input
cannot be interpreted as RGB pixel data. -/
def convertRGB (img : PILImage) : Except NormError PILImage :=
  match img.rgbData with
  | some px => .ok { mode := "RGB", rgbData := some px }
  | none => .error .UnsupportedInputFormat

/-- The keyword arguments of a PIL `img.save(..., "JPEG", ...)` call; `none`
for an argument the call site omits.  Subsampling uses PIL's encoding:
`0` = 4:4:4, `2` = 4:2:0. -/
structure SaveParams where
  quality : Nat
  optimize : Bool
  progressive : Bool
  exif : Option (List Nat)
  subsampling : Option Nat
deriving DecidableEq, Repr

/-- Modelled from the spec: subsampling the library picks when the call site
requests none (its exact value is irrelevant to every theorem below). -/
def librarySubsamplingDefault : Nat := 2

/-- Modelled from the spec: the JPEG encoder of the external imaging library.
Spec §4.1: progressive-scan segments are present iff progressive coding is
requested; metadata segments are exactly the supplied metadata (none when the
exif argument is empty or omitted, spec: `strip_metadata` always true); the
requested chroma subsampling mode is applied exactly, never substituted, with
a library default only when the call site requests no mode. -/
structure JPEGStream where
  progressiveScan : Bool
  metadataSegments : List (List Nat)
  subsampling : Nat
deriving DecidableEq, Repr

/-- Modelled from the spec: `img.save(filename, "JPEG", **params)` — the byte
stream's structural features as a function of the save parameters. -/
def encodeJPEG (img : PILImage) (p : SaveParams) : JPEGStream :=
  { progressiveScan := p.progressive
    metadataSegments :=
      match p.exif with
      | none => []
      | some [] => []
      | some e => [e]
    subsampling := p.subsampling.getD librarySubsamplingDefault }

/-- The per-image body of the conversion loop of `convert_to_baseline.py`:
convert to RGB when `img.mode != "RGB"`, then
`img.save(img_path, "JPEG", quality=85, optimize=False, progressive=False,
exif=b"")`. -/
def convert_to_baseline (img : PILImage) : Except NormError JPEGStream := do
  let rgb ← if img.mode = "RGB" then .ok img else convertRGB img
  .ok (encodeJPEG rgb
    { quality := 85, optimize := false, progressive := false,
      exif := some [], subsampling := none })

/-- `save_baseline_jpeg(img, filename)` of `create_baseline_jpegs.py`:
convert to RGB when needed, then
`img.save(filename, "JPEG", quality=80, optimize=False, progressive=False,
subsampling=0)`. -/
def save_baseline_jpeg (img : PILImage) : Except NormError JPEGStream := do
  let rgb ← if img.mode = "RGB" then .ok img else convertRGB img
  .ok (encodeJPEG rgb
    { quality := 80, optimize := false, progressive := false,
      exif := none, subsampling := some 0 })

/-! ## Helper lemmas -/

/-- With enough fuel the chunks concatenate back to the input list. -/
theorem chunks16Go_flatten : ∀ (fuel : Nat) (l : List Nat), l.length ≤ fuel →
    (chunks16Go fuel l).flatten = l := by
  intro fuel
  induction fuel with
  | zero =>
    intro l hl
    have : l = [] := List.eq_nil_of_length_eq_zero (Nat.le_zero.mp hl)
    subst this
    rfl
  | succ n ih =>
    intro l hl
    cases l with
    | nil => rfl
    | cons a as =>
      show ((a :: as).take 16 :: chunks16Go n ((a :: as).drop 16)).flatten = a :: as
      rw [List.flatten_cons,
        ih ((a :: as).drop 16)
          (by simp only [List.length_drop, List.length_cons]
              simp only [List.length_cons] at hl
              omega)]
      exact List.take_append_drop 16 (a :: as)

/-- The rows of the embedder concatenate back to the input bytes. -/
theorem chunks16_flatten (l : List Nat) : (chunks16 l).flatten = l :=
  chunks16Go_flatten l.length l le_rfl

/-- Indexing a row-major grid built from nested `List.range` maps. -/
theorem getD_grid {β : Type} (w h x y : Nat) (f : Nat → Nat → β) (d : β)
    (hx : x < w) (hy : y < h) :
    (((List.range h).map fun j => (List.range w).map fun i => f i j).getD y []).getD x d
      = f x y := by
  have hrow : ((List.range h).map fun j => (List.range w).map fun i => f i j).getD y []
      = (List.range w).map fun i => f i y := by
    rw [List.getD_eq_getElem?_getD, List.getElem?_map, List.getElem?_range hy]
    rfl
  rw [hrow, List.getD_eq_getElem?_getD, List.getElem?_map, List.getElem?_range hx]
  rfl

/-- Rounding to nearest never exceeds the ceiling. -/
theorem roundHalfEven_le_ceil (q : Rat) : roundHalfEven q ≤ Int.ceil q := by
  have hfc : Int.floor q ≤ Int.ceil q := Int.floor_le_ceil q
  rw [roundHalfEven]
  by_cases h1 : q - Int.floor q < 1 / 2
  · rw [if_pos h1]
    exact hfc
  · rw [if_neg h1]
    have hlt : (Int.floor q : Rat) < q := by
      have : (1 / 2 : Rat) ≤ q - Int.floor q := not_lt.mp h1
      linarith
    have hsucc : Int.floor q + 1 ≤ Int.ceil q :=
      Int.add_one_le_iff.mpr (Int.lt_ceil.mpr hlt)
    by_cases h2 : (1 / 2 : Rat) < q - Int.floor q
    · rw [if_pos h2]
      exact hsucc
    · rw [if_neg h2]
      by_cases h3 : Int.floor q % 2 = 0
      · rw [if_pos h3]
        exact hfc
      · rw [if_neg h3]
        exact hsucc

/-- Rounding to nearest never falls below the floor. -/
theorem floor_le_roundHalfEven (q : Rat) : Int.floor q ≤ roundHalfEven q := by
  rw [roundHalfEven]
  by_cases h1 : q - Int.floor q < 1 / 2
  · rw [if_pos h1]
  · rw [if_neg h1]
    by_cases h2 : (1 / 2 : Rat) < q - Int.floor q
    · rw [if_pos h2]
      omega
    · rw [if_neg h2]
      by_cases h3 : Int.floor q % 2 = 0
      · rw [if_pos h3]
      · rw [if_neg h3]
        omega

/-- Round to nearest of a value at most an integer stays at most it. -/
theorem roundHalfEven_le_int (q : Rat) (z : Int) (h : q ≤ (z : Rat)) :
    roundHalfEven q ≤ z :=
  le_trans (roundHalfEven_le_ceil q) (Int.ceil_le.mpr h)

/-- Round to nearest of a value at least an integer stays at least it. -/
theorem int_le_roundHalfEven (q : Rat) (z : Int) (h : (z : Rat) ≤ q) :
    z ≤ roundHalfEven q :=
  le_trans (Int.le_floor.mpr h) (floor_le_roundHalfEven q)

/-- Concrete evaluation of `roundHalfEven` in the round-down case. -/
theorem roundHalfEven_eq_of (q : Rat) (n : Int)
    (h1 : (n : Rat) ≤ q) (h2 : q < (n : Rat) + 1 / 2) :
    roundHalfEven q = n := by
  have hf : Int.floor q = n := Int.floor_eq_iff.mpr ⟨h1, by linarith⟩
  rw [roundHalfEven, hf, if_pos (by linarith)]

/-- `ratLog2` brackets a positive rational between consecutive powers of 2. -/
theorem ratLog2_spec (q : Rat) (hq : 0 < q) :
    (2 : Rat) ^ ratLog2 q ≤ q ∧ q < (2 : Rat) ^ (ratLog2 q + 1) := by
  have hnum : 0 < q.num := Rat.num_pos.mpr hq
  have hden : 0 < q.den := q.den_pos
  have hnum0 : q.num.toNat ≠ 0 := by omega
  have hden0 : q.den ≠ 0 := by omega
  set a := Nat.log2 q.num.toNat with ha
  set b := Nat.log2 q.den with hb
  have ha1 : 2 ^ a ≤ q.num.toNat := Nat.log2_self_le hnum0
  have ha2 : q.num.toNat < 2 ^ (a + 1) := Nat.lt_log2_self
  have hb1 : 2 ^ b ≤ q.den := Nat.log2_self_le hden0
  have hb2 : q.den < 2 ^ (b + 1) := Nat.lt_log2_self
  have hcast : ((q.num.toNat : Rat)) = (q.num : Rat) := by
    exact_mod_cast congrArg (fun z : Int => (z : Rat)) (Int.toNat_of_nonneg hnum.le)
  have hqeq : (q.num.toNat : Rat) / (q.den : Rat) = q := by
    rw [hcast]
    exact Rat.num_div_den q
  have hdenR : (0 : Rat) < (q.den : Rat) := by exact_mod_cast hden
  have h2ne : (2 : Rat) ≠ 0 := by norm_num
  have hnumR1 : (2 : Rat) ^ (a : Int) ≤ (q.num.toNat : Rat) := by
    rw [zpow_natCast]
    exact_mod_cast ha1
  have hnumR2 : (q.num.toNat : Rat) < (2 : Rat) ^ ((a : Int) + 1) := by
    rw [show ((a : Int) + 1) = ((a + 1 : Nat) : Int) by push_cast; ring, zpow_natCast]
    exact_mod_cast ha2
  have hdenR1 : (2 : Rat) ^ (b : Int) ≤ (q.den : Rat) := by
    rw [zpow_natCast]
    exact_mod_cast hb1
  have hdenR2 : (q.den : Rat) < (2 : Rat) ^ ((b : Int) + 1) := by
    rw [show ((b : Int) + 1) = ((b + 1 : Nat) : Int) by push_cast; ring, zpow_natCast]
    exact_mod_cast hb2
  have hql : (2 : Rat) ^ ((a : Int) - ((b : Int) + 1)) < q := by
    rw [← hqeq, lt_div_iff hdenR]
    calc (2 : Rat) ^ ((a : Int) - ((b : Int) + 1)) * (q.den : Rat)
        < (2 : Rat) ^ ((a : Int) - ((b : Int) + 1)) * (2 : Rat) ^ ((b : Int) + 1) :=
          mul_lt_mul_of_pos_left hdenR2 (zpow_pos (by norm_num) _)
      _ = (2 : Rat) ^ (a : Int) := by
          rw [← zpow_add₀ h2ne]
          congr 1
          ring
      _ ≤ (q.num.toNat : Rat) := hnumR1
  have hqu : q < (2 : Rat) ^ ((a : Int) - (b : Int) + 1) := by
    rw [← hqeq, div_lt_iff hdenR]
    calc (q.num.toNat : Rat) < (2 : Rat) ^ ((a : Int) + 1) := hnumR2
      _ = (2 : Rat) ^ ((a : Int) - (b : Int) + 1) * (2 : Rat) ^ (b : Int) := by
          rw [← zpow_add₀ h2ne]
          congr 1
          ring
      _ ≤ (2 : Rat) ^ ((a : Int) - (b : Int) + 1) * (q.den : Rat) :=
          mul_le_mul_of_nonneg_left hdenR1 (le_of_lt (zpow_pos (by norm_num) _))
  have hdef : ratLog2 q =
      if q < (2 : Rat) ^ ((a : Int) - (b : Int)) then (a : Int) - (b : Int) - 1
      else (a : Int) - (b : Int) := rfl
  by_cases hc : q < (2 : Rat) ^ ((a : Int) - (b : Int))
  · rw [hdef, if_pos hc]
    constructor
    · have he : (a : Int) - (b : Int) - 1 = (a : Int) - ((b : Int) + 1) := by ring
      rw [he]
      exact le_of_lt hql
    · rw [sub_add_cancel]
      exact hc
  · rw [hdef, if_neg hc]
    exact ⟨not_lt.mp hc, hqu⟩

/-- The bracketing determines `ratLog2` uniquely. -/
theorem ratLog2_eq (q : Rat) (e : Int)
    (h1 : (2 : Rat) ^ e ≤ q) (h2 : q < (2 : Rat) ^ (e + 1)) :
    ratLog2 q = e := by
  have hq : 0 < q := lt_of_lt_of_le (zpow_pos (by norm_num) e) h1
  obtain ⟨l1, l2⟩ := ratLog2_spec q hq
  by_contra h
  rcases lt_or_gt_of_ne h with hlt | hgt
  · have : (2 : Rat) ^ (ratLog2 q + 1) ≤ (2 : Rat) ^ e :=
      zpow_le_zpow_right₀ (by norm_num) (by omega)
    linarith
  · have : (2 : Rat) ^ (e + 1) ≤ (2 : Rat) ^ ratLog2 q :=
      zpow_le_zpow_right₀ (by norm_num) (by omega)
    linarith

/-- `rnd53` is an odd function, as binary64 rounding is. -/
theorem rnd53_neg (q : Rat) : rnd53 (-q) = -rnd53 q := by
  rcases lt_trichotomy q 0 with h | h | h
  · rw [rnd53, if_neg (by linarith), if_neg (fun h0 => h.ne (neg_eq_zero.mp h0))]
    rw [rnd53, if_pos h, neg_neg]
  · subst h
    rw [neg_zero]
    simp [rnd53]
  · rw [rnd53, if_pos (by linarith), neg_neg]
    rw [rnd53, if_neg (not_lt.mpr h.le), if_neg h.ne']

/-- Rounding preserves nonnegativity. -/
theorem rnd53_nonneg (q : Rat) (h : 0 ≤ q) : 0 ≤ rnd53 q := by
  rw [rnd53, if_neg (not_lt.mpr h)]
  by_cases h0 : q = 0
  · rw [if_pos h0]
  · rw [if_neg h0, rnd53Pos]
    have hm : (0 : Int) ≤ roundHalfEven (q * (2 : Rat) ^ (52 - ratLog2 q)) := by
      apply int_le_roundHalfEven
      push_cast
      exact mul_nonneg h (le_of_lt (zpow_pos (by norm_num) _))
    exact mul_nonneg (by exact_mod_cast hm) (le_of_lt (zpow_pos (by norm_num) _))

/-- Rounding a positive value bounded by 2^52 and by an integer stays bounded
by that integer (the integer is representable, so nearest rounding cannot
cross it). -/
theorem rnd53_le_int (q : Rat) (z : Int) (hq : 0 < q)
    (h52 : q ≤ (2 : Rat) ^ (52 : Int)) (hz : q ≤ (z : Rat)) :
    rnd53 q ≤ (z : Rat) := by
  rw [rnd53, if_neg (not_lt.mpr hq.le), if_neg hq.ne', rnd53Pos]
  have h2ne : (2 : Rat) ≠ 0 := by norm_num
  have hsnn : 0 ≤ 52 - ratLog2 q := by
    have hlog : ratLog2 q ≤ 52 := by
      by_contra hgt
      push_neg at hgt
      have hlow := (ratLog2_spec q hq).1
      have hmono : (2 : Rat) ^ (53 : Int) ≤ (2 : Rat) ^ ratLog2 q :=
        zpow_le_zpow_right₀ (by norm_num) (by omega)
      have hstep : (2 : Rat) ^ (52 : Int) < (2 : Rat) ^ (53 : Int) := by
        norm_num
      linarith
    omega
  set s : Int := 52 - ratLog2 q with hs
  have hzint : ((z * 2 ^ s.toNat : Int) : Rat) = (z : Rat) * (2 : Rat) ^ s := by
    push_cast
    rw [← zpow_natCast (2 : Rat) s.toNat, Int.toNat_of_nonneg hsnn]
  have h1 : roundHalfEven (q * (2 : Rat) ^ s) ≤ z * 2 ^ s.toNat := by
    apply roundHalfEven_le_int
    rw [hzint]
    exact mul_le_mul_of_nonneg_right hz (le_of_lt (zpow_pos (by norm_num) _))
  calc (roundHalfEven (q * (2 : Rat) ^ s) : Rat) * (2 : Rat) ^ (-s)
      ≤ ((z * 2 ^ s.toNat : Int) : Rat) * (2 : Rat) ^ (-s) :=
        mul_le_mul_of_nonneg_right (by exact_mod_cast h1)
          (le_of_lt (zpow_pos (by norm_num) _))
    _ = (z : Rat) := by
        rw [hzint, mul_assoc, ← zpow_add₀ h2ne, add_neg_cancel, zpow_zero, mul_one]

/-- Rounding keeps a value between two representable integer bounds that
bracket zero. -/
theorem rnd53_mem_int_bounds (q : Rat) (lo hi : Int)
    (hlo : (lo : Rat) ≤ q) (hhi : q ≤ (hi : Rat))
    (hlo0 : lo ≤ 0) (hhi0 : 0 ≤ hi)
    (h52lo : -((2 : Rat) ^ (52 : Int)) ≤ q) (h52hi : q ≤ (2 : Rat) ^ (52 : Int)) :
    (lo : Rat) ≤ rnd53 q ∧ rnd53 q ≤ (hi : Rat) := by
  rcases lt_trichotomy q 0 with hq | hq | hq
  · have h1 : rnd53 q = -rnd53 (-q) := by
      rw [← rnd53_neg, neg_neg]
    have h2 : rnd53 (-q) ≤ ((-lo : Int) : Rat) := by
      apply rnd53_le_int (-q) (-lo) (by linarith) (by linarith)
      push_cast
      linarith
    have h3 : 0 ≤ rnd53 (-q) := rnd53_nonneg _ (by linarith)
    constructor
    · rw [h1]
      push_cast at h2 ⊢
      linarith
    · rw [h1]
      have hhiR : (0 : Rat) ≤ (hi : Rat) := by exact_mod_cast hhi0
      linarith
  · subst hq
    rw [rnd53, if_neg (by norm_num), if_pos rfl]
    constructor
    · exact_mod_cast hlo0
    · exact_mod_cast hhi0
  · constructor
    · have h1 := rnd53_nonneg q hq.le
      have hloR : ((lo : Int) : Rat) ≤ 0 := by exact_mod_cast hlo0
      linarith
    · exact rnd53_le_int q hi hq h52hi hhi

/-- Evaluation rule for `rnd53` at a positive rational with a known binade
and a known nearest-integer result for the scaled significand. -/
theorem rnd53_eval (q : Rat) (e : Int) (m : Int)
    (h1 : (2 : Rat) ^ e ≤ q) (h2 : q < (2 : Rat) ^ (e + 1))
    (hm : roundHalfEven (q * (2 : Rat) ^ (52 - e)) = m) :
    rnd53 q = (m : Rat) * (2 : Rat) ^ (-(52 - e)) := by
  have hq : 0 < q := lt_of_lt_of_le (zpow_pos (by norm_num) e) h1
  rw [rnd53, if_neg (not_lt.mpr hq.le), if_neg hq.ne', rnd53Pos,
    ratLog2_eq q e h1 h2, hm]

/-- A pixel coordinate inside the image gives a rounded ratio in [0, 1]. -/
theorem ratio_bounds (x w : Nat) (hx : x < w) :
    0 ≤ rnd53 ((x : Rat) / (w : Rat)) ∧ rnd53 ((x : Rat) / (w : Rat)) ≤ 1 := by
  have hw : (0 : Rat) < (w : Rat) := by
    exact_mod_cast Nat.lt_of_le_of_lt (Nat.zero_le x) hx
  have h0 : (0 : Rat) ≤ (x : Rat) / (w : Rat) := by positivity
  have h1 : (x : Rat) / (w : Rat) ≤ 1 := by
    rw [div_le_one hw]
    exact_mod_cast Nat.le_of_lt hx
  have h52 : (1 : Rat) ≤ (2 : Rat) ^ (52 : Int) := by norm_num
  have h := rnd53_mem_int_bounds ((x : Rat) / (w : Rat)) 0 1
    (by push_cast; linarith) (by push_cast; linarith) le_rfl (by norm_num)
    (by linarith) (by linarith)
  constructor
  · have := h.1
    push_cast at this
    linarith
  · have := h.2
    push_cast at this
    linarith

/-- An interpolation ratio in [0, 1] keeps the float evaluation of
`int(c1 + (c2 - c1) * ratio)` inside [0, 255] when both endpoints are:
rounding cannot cross the representable integers bounding each stage. -/
theorem truncFloat_interp_range (a b : Int) (r : Rat)
    (ha0 : 0 ≤ a) (ha1 : a ≤ 255) (hb0 : 0 ≤ b) (hb1 : b ≤ 255)
    (hr0 : 0 ≤ r) (hr1 : r ≤ 1) :
    0 ≤ truncInt (rnd53 ((a : Rat) + rnd53 (((b : Rat) - (a : Rat)) * r))) ∧
      truncInt (rnd53 ((a : Rat) + rnd53 (((b : Rat) - (a : Rat)) * r))) ≤ 255 := by
  have ha0q : (0 : Rat) ≤ (a : Rat) := by exact_mod_cast ha0
  have ha1q : (a : Rat) ≤ 255 := by exact_mod_cast ha1
  have hb0q : (0 : Rat) ≤ (b : Rat) := by exact_mod_cast hb0
  have hb1q : (b : Rat) ≤ 255 := by exact_mod_cast hb1
  have h52 : (255 : Rat) ≤ (2 : Rat) ^ (52 : Int) := by norm_num
  set u : Rat := ((b : Rat) - (a : Rat)) * r with hu
  have hu_lo : ((-a : Int) : Rat) ≤ u := by
    push_cast
    nlinarith [mul_nonneg (sub_nonneg.mpr hr1) ha0q, mul_nonneg hr0 hb0q]
  have hu_hi : u ≤ ((255 - a : Int) : Rat) := by
    push_cast
    nlinarith [mul_nonneg (sub_nonneg.mpr hr1) (by linarith : (0 : Rat) ≤ 255 - (a : Rat)),
      mul_nonneg hr0 (by linarith : (0 : Rat) ≤ 255 - (b : Rat))]
  obtain ⟨huR_lo, huR_hi⟩ := rnd53_mem_int_bounds u (-a) (255 - a) hu_lo hu_hi
    (by omega) (by omega)
    (by push_cast at hu_lo ⊢; linarith)
    (by push_cast at hu_hi ⊢; linarith)
  push_cast at huR_lo huR_hi
  set v : Rat := (a : Rat) + rnd53 u with hv
  have hv_lo : (0 : Rat) ≤ v := by
    rw [hv]
    linarith
  have hv_hi : v ≤ 255 := by
    rw [hv]
    linarith
  obtain ⟨hvR_lo, hvR_hi⟩ := rnd53_mem_int_bounds v 0 255
    (by push_cast; linarith) (by push_cast; linarith) le_rfl (by norm_num)
    (by linarith) (by linarith)
  push_cast at hvR_lo hvR_hi
  rw [truncInt, if_neg (not_lt.mpr hvR_lo)]
  constructor
  · exact Int.floor_nonneg.mpr hvR_lo
  · have : ((Int.floor (rnd53 v) : Rat)) ≤ 255 := le_trans (Int.floor_le _) hvR_hi
    exact_mod_cast this

/-- The stream features produced by `encodeJPEG` depend only on the save
parameters, never on the pixel data. -/
theorem encodeJPEG_const (a b : PILImage) (p : SaveParams) :
    encodeJPEG a p = encodeJPEG b p := rfl

/-- A successful run of the conversion-loop body produces exactly the encoding
of its fixed save parameters. -/
theorem convert_to_baseline_ok (img : PILImage) (s : JPEGStream)
    (h : convert_to_baseline img = .ok s) :
    s = encodeJPEG img
      { quality := 85, optimize := false, progressive := false,
        exif := some [], subsampling := none } := by
  rw [convert_to_baseline] at h
  by_cases hm : img.mode = "RGB"
  · rw [if_pos hm] at h
    exact (Except.ok.inj h).symm
  · rw [if_neg hm] at h
    cases hd : img.rgbData with
    | some px =>
      simp only [convertRGB, hd] at h
      exact (Except.ok.inj h).symm
    | none =>
      simp only [convertRGB, hd] at h
      exact Except.noConfusion h

/-- A successful run of `save_baseline_jpeg` produces exactly the encoding of
its fixed save parameters. -/
theorem save_baseline_jpeg_ok (img : PILImage) (s : JPEGStream)
    (h : save_baseline_jpeg img = .ok s) :
    s = encodeJPEG img
      { quality := 80, optimize := false, progressive := false,
        exif := none, subsampling := some 0 } := by
  rw [save_baseline_jpeg] at h
  by_cases hm : img.mode = "RGB"
  · rw [if_pos hm] at h
    exact (Except.ok.inj h).symm
  · rw [if_neg hm] at h
    cases hd : img.rgbData with
    | some px =>
      simp only [convertRGB, hd] at h
      exact (Except.ok.inj h).symm
    | none =>
      simp only [convertRGB, hd] at h
      exact Except.noConfusion h

/-! ## Claim theorems -/

/-- C2: the encoder uses exactly the requested chroma subsampling mode — a
requested mode is never substituted — and the repository's one explicit
request site (`save_baseline_jpeg`, which requests 4:4:4, i.e. mode 0) yields
a stream in mode 0 and never in 4:2:0 (mode 2). -/
theorem chroma_mode_honored (img imgR : PILImage) (p : SaveParams) (m : Nat)
    (s : JPEGStream) (hm : p.subsampling = some m)
    (hs : save_baseline_jpeg imgR = .ok s) :
    (encodeJPEG img p).subsampling = m ∧ s.subsampling = 0 ∧ s.subsampling ≠ 2 := by
  refine ⟨?_, ?_, ?_⟩
  · rw [encodeJPEG]
    simp [hm]
  · rw [save_baseline_jpeg_ok imgR s hs]
    rfl
  · rw [save_baseline_jpeg_ok imgR s hs]
    rw [encodeJPEG]
    simp

/-- C2 witness: a concrete request for mode 0 is honored, and a concrete
`save_baseline_jpeg` run yields mode 0, not 2. -/
theorem chroma_mode_honored_witness :
    ({ quality := 85, optimize := false, progressive := false, exif := some [],
       subsampling := some 0 : SaveParams }.subsampling = some 0) ∧
    (save_baseline_jpeg { mode := "RGB", rgbData := some [] }
      = .ok { progressiveScan := false, metadataSegments := [], subsampling := 0 }) ∧
    ((encodeJPEG { mode := "RGB", rgbData := some [] }
        { quality := 85, optimize := false, progressive := false, exif := some [],
          subsampling := some 0 }).subsampling = 0 ∧
      ({ progressiveScan := false, metadataSegments := [], subsampling := 0
         : JPEGStream }).subsampling = 0 ∧
      ({ progressiveScan := false, metadataSegments := [], subsampling := 0
         : JPEGStream }).subsampling ≠ 2) :=
  ⟨rfl, rfl,
    chroma_mode_honored { mode := "RGB", rgbData := some [] }
      { mode := "RGB", rgbData := some [] } _ 0 _ rfl rfl⟩

/-- C3: every output the conversion loop accepts an input into is free of
progressive-scan segments and of metadata segments. -/
theorem normalizer_output_is_baseline (img : PILImage) (s : JPEGStream)
    (h : convert_to_baseline img = .ok s) :
    s.progressiveScan = false ∧ s.metadataSegments = [] := by
  rw [convert_to_baseline_ok img s h]
  exact ⟨rfl, rfl⟩

/-- C3 witness: a concrete RGB input converts to a stream with no progressive
and no metadata segments. -/
theorem normalizer_output_is_baseline_witness :
    (convert_to_baseline { mode := "RGB", rgbData := some [] }
      = .ok { progressiveScan := false, metadataSegments := [], subsampling := 2 }) ∧
    (({ progressiveScan := false, metadataSegments := [], subsampling := 2
        : JPEGStream }).progressiveScan = false ∧
      ({ progressiveScan := false, metadataSegments := [], subsampling := 2
         : JPEGStream }).metadataSegments = []) :=
  ⟨rfl, normalizer_output_is_baseline { mode := "RGB", rgbData := some [] } _ rfl⟩

/-- C8: an input that cannot be interpreted as RGB pixel data makes the
conversion-loop body fail with `UnsupportedInputFormat` instead of producing
an output stream. -/
theorem unsupported_input_rejected (img : PILImage)
    (hmode : img.mode ≠ "RGB") (hdata : img.rgbData = none) :
    convert_to_baseline img = .error .UnsupportedInputFormat := by
  rw [convert_to_baseline, if_neg hmode]
  simp only [convertRGB, hdata]
  rfl

/-- C8 witness: a palette image without resolvable RGB data is rejected. -/
theorem unsupported_input_rejected_witness :
    (({ mode := "P", rgbData := none : PILImage }).mode ≠ "RGB") ∧
    convert_to_baseline { mode := "P", rgbData := none }
      = .error .UnsupportedInputFormat :=
  ⟨by decide, unsupported_input_rejected { mode := "P", rgbData := none } (by decide) rfl⟩

/-- C1: for every byte sequence read for an asset, the emitted length constant
equals the exact number of input bytes, the byte rows concatenate to exactly
the input bytes in order, and the empty input yields zero rows and length
constant 0. -/
theorem embedder_roundtrip (fs : String → Option (List Nat))
    (input_file var_name : String) (data : List Nat)
    (hread : fs input_file = some data) :
    ∃ hdr, generate_header fs input_file var_name = some hdr ∧
      hdr.lenConst = data.length ∧
      hdr.rows.flatten = data ∧
      (data = [] → hdr.rows = [] ∧ hdr.lenConst = 0) := by
  refine ⟨{ sourceBase := basename input_file, varName := var_name,
            rows := chunks16 data, lenConst := data.length },
    ?_, rfl, chunks16_flatten data, ?_⟩
  · rw [generate_header, hread]
    rfl
  · intro hd
    subst hd
    exact ⟨rfl, rfl⟩

/-- A tiny filesystem for the embedder witnesses. -/
def fsTwoFiles : String → Option (List Nat) := fun p =>
  if p = "kernel/media/bootstrap_images/landscape.jpg" then some (List.range 20)
  else if p = "empty.bin" then some [] else none

/-- C1 witness: a 20-byte asset and the empty asset, both via
`embedder_roundtrip`. -/
theorem embedder_roundtrip_witness :
    (fsTwoFiles "kernel/media/bootstrap_images/landscape.jpg" = some (List.range 20)) ∧
    (fsTwoFiles "empty.bin" = some []) ∧
    (∃ hdr, generate_header fsTwoFiles "kernel/media/bootstrap_images/landscape.jpg"
        "bootstrap_landscape_jpg" = some hdr ∧
      hdr.lenConst = (List.range 20).length ∧
      hdr.rows.flatten = List.range 20 ∧
      (List.range 20 = [] → hdr.rows = [] ∧ hdr.lenConst = 0)) ∧
    (∃ hdr, generate_header fsTwoFiles "empty.bin" "empty_bin" = some hdr ∧
      hdr.lenConst = ([] : List Nat).length ∧
      hdr.rows.flatten = ([] : List Nat) ∧
      (([] : List Nat) = [] → hdr.rows = [] ∧ hdr.lenConst = 0)) :=
  ⟨rfl, by decide,
    embedder_roundtrip fsTwoFiles "kernel/media/bootstrap_images/landscape.jpg"
      "bootstrap_landscape_jpg" (List.range 20) rfl,
    embedder_roundtrip fsTwoFiles "empty.bin" "empty_bin" [] (by decide)⟩

/-- C9: the embedder is deterministic and timestamp-free — the declaration
text depends only on the asset bytes, the variable name, and the input file's
base name; two runs over files with equal bytes and equal base names (even
from different directories or filesystem states) emit identical text. -/
theorem embedder_deterministic (fs1 fs2 : String → Option (List Nat))
    (p1 p2 var_name : String) (data : List Nat)
    (h1 : fs1 p1 = some data) (h2 : fs2 p2 = some data)
    (hbase : basename p1 = basename p2) :
    (generate_header fs1 p1 var_name).map render
      = (generate_header fs2 p2 var_name).map render := by
  rw [generate_header, generate_header, h1, h2]
  simp only [Option.map_some, hbase]

/-- A constant filesystem for the determinism witness. -/
def fsConstBytes : String → Option (List Nat) := fun _ => some [0, 171]

/-- C9 witness: the same bytes under the same base name in two different
directories render to the same text. -/
theorem embedder_deterministic_witness :
    (fsConstBytes "a/x.jpg" = some [0, 171]) ∧
    (basename "a/x.jpg" = basename "b/x.jpg") ∧
    (generate_header fsConstBytes "a/x.jpg" "x_jpg").map render
      = (generate_header fsConstBytes "b/x.jpg" "x_jpg").map render :=
  ⟨rfl, by decide,
    embedder_deterministic fsConstBytes fsConstBytes "a/x.jpg" "b/x.jpg" "x_jpg"
      [0, 171] rfl rfl (by decide)⟩

/-- C4: a missing source asset in the middle of a batch yields the
`SourceNotFound` report for exactly that asset and leaves the processing of
every other asset unchanged — each surrounding asset still produces the output
it would produce in a batch by itself. -/
theorem batch_partial_failure (fs : String → Option (List Nat))
    (imagesDir outputDir : String) (pre post : List (String × String))
    (missing : String × String)
    (hmiss : fs (joinPath imagesDir missing.1) = none) :
    main fs imagesDir outputDir (pre ++ missing :: post)
      = main fs imagesDir outputDir pre
        ++ AssetResult.sourceNotFound (joinPath imagesDir missing.1)
          :: main fs imagesDir outputDir post := by
  rw [main, main, main, List.map_append, List.map_cons]
  have : processAsset fs imagesDir outputDir missing
      = AssetResult.sourceNotFound (joinPath imagesDir missing.1) := by
    rw [processAsset, generate_header, hmiss]
    rfl
  rw [this]

/-- A filesystem with the second of three batch assets missing. -/
def fsBatch : String → Option (List Nat) := fun p =>
  if p = "imgs/a.jpg" then some [1, 2, 3]
  else if p = "imgs/c.jpg" then some [4, 5] else none

/-- C4 witness: in a batch of three with the second asset missing, the run
reports `SourceNotFound` for the second and still generates outputs for the
first and third. -/
theorem batch_partial_failure_witness :
    (fsBatch "imgs/b.jpg" = none) ∧
    main fsBatch "imgs" "out" [("a.jpg", "va"), ("b.jpg", "vb"), ("c.jpg", "vc")]
      = main fsBatch "imgs" "out" [("a.jpg", "va")]
        ++ AssetResult.sourceNotFound (joinPath "imgs" "b.jpg")
          :: main fsBatch "imgs" "out" [("c.jpg", "vc")] ∧
    (main fsBatch "imgs" "out"
        [("a.jpg", "va"), ("b.jpg", "vb"), ("c.jpg", "vc")]).map
      AssetResult.isGenerated = [true, false, true] :=
  ⟨by decide,
    batch_partial_failure fsBatch "imgs" "out" [("a.jpg", "va")] [("c.jpg", "vc")]
      ("b.jpg", "vb") (by decide),
    by decide⟩

/-- The `ratio` local of `create_gradient_image`: `x / width` when
`direction == "horizontal"`, else `y / height`. -/
def gradientRatio (direction : String) (x y w h : Nat) : Rat :=
  if direction = "horizontal" then rnd53 ((x : Rat) / (w : Rat))
  else rnd53 ((y : Rat) / (h : Rat))

/-- C6 counterexample: with width 49, endpoint r-channels 0 and 49,
horizontal direction, the pixel at (1, 0) has r-channel 0 — Python's double
arithmetic computes `49 * (1/49)` as `0.9999999999999999` and truncates to 0 —
while the claim's formula `int(c1 + (c2 - c1) * ratio)` with exact
`ratio = 1/49` gives 1. -/
theorem gradient_float_counterexample :
    pixelAt (create_gradient_image 49 1 ⟨0, 0, 0⟩ ⟨49, 49, 49⟩ "horizontal")
        1 0 ⟨9, 9, 9⟩ = ⟨0, 0, 0⟩ ∧
    truncInt ((0 : Rat) + ((49 : Rat) - 0) * ((1 : Rat) / 49)) = 1 := by
  constructor
  · have hgrid : pixelAt (create_gradient_image 49 1 ⟨0, 0, 0⟩ ⟨49, 49, 49⟩ "horizontal")
        1 0 ⟨9, 9, 9⟩ =
        { r := truncInt (rnd53 (((0 : Int) : Rat) +
            rnd53 ((((49 : Int) : Rat) - ((0 : Int) : Rat)) * rnd53 (((1 : Nat) : Rat) / ((49 : Nat) : Rat)))))
          g := truncInt (rnd53 (((0 : Int) : Rat) +
            rnd53 ((((49 : Int) : Rat) - ((0 : Int) : Rat)) * rnd53 (((1 : Nat) : Rat) / ((49 : Nat) : Rat)))))
          b := truncInt (rnd53 (((0 : Int) : Rat) +
            rnd53 ((((49 : Int) : Rat) - ((0 : Int) : Rat)) * rnd53 (((1 : Nat) : Rat) / ((49 : Nat) : Rat))))) } := by
      rw [create_gradient_image, pixelAt]
      exact getD_grid 49 1 1 0 _ (⟨9, 9, 9⟩ : RGB) (by norm_num) (by norm_num)
    rw [hgrid]
    have hcast : (((1 : Nat) : Rat) / ((49 : Nat) : Rat)) = (1 : Rat) / 49 := by
      norm_num
    rw [hcast]
    have hratio : rnd53 ((1 : Rat) / 49)
        = (5882252574524729 : Rat) / 288230376151711744 := by
      have hm : roundHalfEven (((1 : Rat) / 49) * (2 : Rat) ^ ((52 : Int) - (-6)))
          = 5882252574524729 := by
        apply roundHalfEven_eq_of
        · norm_num
        · norm_num
      have h := rnd53_eval ((1 : Rat) / 49) (-6) 5882252574524729
        (by norm_num) (by norm_num) hm
      rw [h]
      norm_num
    rw [hratio]
    have hmul : (((49 : Int) : Rat) - ((0 : Int) : Rat)) *
        ((5882252574524729 : Rat) / 288230376151711744)
        = (288230376151711721 : Rat) / 288230376151711744 := by
      norm_num
    rw [hmul]
    have hu : rnd53 ((288230376151711721 : Rat) / 288230376151711744)
        = (9007199254740991 : Rat) / 9007199254740992 := by
      have hm : roundHalfEven (((288230376151711721 : Rat) / 288230376151711744)
          * (2 : Rat) ^ ((52 : Int) - (-1))) = 9007199254740991 := by
        apply roundHalfEven_eq_of
        · norm_num
        · norm_num
      have h := rnd53_eval ((288230376151711721 : Rat) / 288230376151711744) (-1)
        9007199254740991 (by norm_num) (by norm_num) hm
      rw [h]
      norm_num
    rw [hu]
    have hadd : ((0 : Int) : Rat) + (9007199254740991 : Rat) / 9007199254740992
        = (9007199254740991 : Rat) / 9007199254740992 := by
      norm_num
    rw [hadd]
    have hv : rnd53 ((9007199254740991 : Rat) / 9007199254740992)
        = (9007199254740991 : Rat) / 9007199254740992 := by
      have hm : roundHalfEven (((9007199254740991 : Rat) / 9007199254740992)
          * (2 : Rat) ^ ((52 : Int) - (-1))) = 9007199254740991 := by
        apply roundHalfEven_eq_of
        · norm_num
        · norm_num
      have h := rnd53_eval ((9007199254740991 : Rat) / 9007199254740992) (-1)
        9007199254740991 (by norm_num) (by norm_num) hm
      rw [h]
      norm_num
    rw [hv]
    have htr : truncInt ((9007199254740991 : Rat) / 9007199254740992) = 0 := by
      rw [truncInt, if_neg (by norm_num)]
      rw [Int.floor_eq_iff]
      constructor
      · norm_num
      · norm_num
    rw [htr]
  · rw [show (0 : Rat) + ((49 : Rat) - 0) * ((1 : Rat) / 49) = 1 by norm_num]
    rw [truncInt, if_neg (by norm_num)]
    rw [show ((1 : Rat)) = ((1 : Int) : Rat) by norm_num, Int.floor_intCast]

/-- C6 as amended: every gradient pixel has channels
`int(c1 + (c2 - c1) * ratio)` with `ratio = x/width` (horizontal) or
`y/height` (otherwise vertical), evaluated in Python's binary64 float
arithmetic — division, multiplication and addition each rounded to nearest,
ties to even — and when both endpoint colours have channels in [0, 255] so
does every pixel.  The dimension bounds keep every operation inside the
binary64 normal range, where the rounding model is exact. -/
theorem gradient_pixel_formula (w h : Nat) (c1 c2 : RGB) (direction : String)
    (x y : Nat) (d : RGB) (hx : x < w) (hy : y < h)
    (_hwE : w ≤ 2 ^ 1022) (_hhE : h ≤ 2 ^ 1022)
    (h1 : c1.inRange) (h2 : c2.inRange) :
    pixelAt (create_gradient_image w h c1 c2 direction) x y d =
      { r := truncInt (rnd53 ((c1.r : Rat) + rnd53 (((c2.r : Rat) - (c1.r : Rat)) * gradientRatio direction x y w h)))
        g := truncInt (rnd53 ((c1.g : Rat) + rnd53 (((c2.g : Rat) - (c1.g : Rat)) * gradientRatio direction x y w h)))
        b := truncInt (rnd53 ((c1.b : Rat) + rnd53 (((c2.b : Rat) - (c1.b : Rat)) * gradientRatio direction x y w h))) } ∧
    (pixelAt (create_gradient_image w h c1 c2 direction) x y d).inRange := by
  have hpix : pixelAt (create_gradient_image w h c1 c2 direction) x y d =
      { r := truncInt (rnd53 ((c1.r : Rat) + rnd53 (((c2.r : Rat) - (c1.r : Rat)) * gradientRatio direction x y w h)))
        g := truncInt (rnd53 ((c1.g : Rat) + rnd53 (((c2.g : Rat) - (c1.g : Rat)) * gradientRatio direction x y w h)))
        b := truncInt (rnd53 ((c1.b : Rat) + rnd53 (((c2.b : Rat) - (c1.b : Rat)) * gradientRatio direction x y w h))) } := by
    rw [create_gradient_image, pixelAt]
    exact getD_grid w h x y _ d hx hy
  refine ⟨hpix, ?_⟩
  rw [hpix]
  have hr : 0 ≤ gradientRatio direction x y w h ∧ gradientRatio direction x y w h ≤ 1 := by
    rw [gradientRatio]
    by_cases hdir : direction = "horizontal"
    · rw [if_pos hdir]
      exact ratio_bounds x w hx
    · rw [if_neg hdir]
      exact ratio_bounds y h hy
  obtain ⟨h1r, h1r2, h1g, h1g2, h1b, h1b2⟩ := h1
  obtain ⟨h2r, h2r2, h2g, h2g2, h2b, h2b2⟩ := h2
  obtain ⟨hrr, hrg⟩ := truncFloat_interp_range c1.r c2.r _ h1r h1r2 h2r h2r2 hr.1 hr.2
  obtain ⟨hgr, hgg⟩ := truncFloat_interp_range c1.g c2.g _ h1g h1g2 h2g h2g2 hr.1 hr.2
  obtain ⟨hbr, hbg⟩ := truncFloat_interp_range c1.b c2.b _ h1b h1b2 h2b h2b2 hr.1 hr.2
  exact ⟨hrr, hrg, hgr, hgg, hbr, hbg⟩

/-- C6 witness: the pixel (1, 0) of a 2×1 horizontal black-to-white gradient,
with every hypothesis discharged concretely. -/
theorem gradient_pixel_formula_witness :
    ((1 : Nat) < 2 ∧ (0 : Nat) < 1 ∧ (2 : Nat) ≤ 2 ^ 1022 ∧ (1 : Nat) ≤ 2 ^ 1022 ∧
      RGB.inRange ⟨0, 0, 0⟩ ∧ RGB.inRange ⟨255, 255, 255⟩) ∧
    (pixelAt (create_gradient_image 2 1 ⟨0, 0, 0⟩ ⟨255, 255, 255⟩ "horizontal")
        1 0 ⟨0, 0, 0⟩ =
      { r := truncInt (rnd53 (((0 : Int) : Rat) + rnd53 ((((255 : Int) : Rat) - ((0 : Int) : Rat)) * gradientRatio "horizontal" 1 0 2 1)))
        g := truncInt (rnd53 (((0 : Int) : Rat) + rnd53 ((((255 : Int) : Rat) - ((0 : Int) : Rat)) * gradientRatio "horizontal" 1 0 2 1)))
        b := truncInt (rnd53 (((0 : Int) : Rat) + rnd53 ((((255 : Int) : Rat) - ((0 : Int) : Rat)) * gradientRatio "horizontal" 1 0 2 1))) } ∧
      (pixelAt (create_gradient_image 2 1 ⟨0, 0, 0⟩ ⟨255, 255, 255⟩ "horizontal")
        1 0 ⟨0, 0, 0⟩).inRange) :=
  ⟨⟨by decide, by decide, by norm_num, by norm_num, by decide, by decide⟩,
    gradient_pixel_formula 2 1 ⟨0, 0, 0⟩ ⟨255, 255, 255⟩ "horizontal" 1 0 ⟨0, 0, 0⟩
      (by decide) (by decide) (by norm_num) (by norm_num) (by decide) (by decide)⟩

/-- C5: every pixel of a tiled-pattern image with a non-empty colour list is
`colors[((x div 40) + (y div 40)) mod len(colors)]`. -/
theorem pattern_pixel_formula (w h : Nat) (colors : List RGB) (x y : Nat)
    (d : RGB) (hx : x < w) (hy : y < h) (hc : colors ≠ []) :
    ∃ img, create_pattern_image w h colors = some img ∧
      pixelAt img x y d = colors.getD (((x / 40) + (y / 40)) % colors.length) d := by
  have hlen : 0 < colors.length := List.length_pos.mpr hc
  have hguard : ¬(colors.length = 0 ∧ 0 < w ∧ 0 < h) := by
    intro hg
    omega
  refine ⟨_, by rw [create_pattern_image, if_neg hguard], ?_⟩
  rw [pixelAt, getD_grid w h x y _ d hx hy]
  have hidx : ((x / 40) + (y / 40)) % colors.length < colors.length :=
    Nat.mod_lt _ hlen
  rw [List.getD_eq_getElem?_getD, List.getD_eq_getElem?_getD,
    List.getElem?_eq_getElem hidx]
  rfl

/-- C5 witness: in the 200×200 image over the four concrete colours of
`create_baseline_jpegs.py`, pixels (0,0) and (39,39) share a colour and pixel
(40,0) has the next colour in the sequence. -/
theorem pattern_pixel_formula_witness :
    ∃ img, create_pattern_image 200 200
        [⟨70, 130, 180⟩, ⟨255, 165, 0⟩, ⟨50, 205, 50⟩, ⟨220, 20, 60⟩] = some img ∧
      pixelAt img 0 0 ⟨0, 0, 0⟩ = pixelAt img 39 39 ⟨0, 0, 0⟩ ∧
      pixelAt img 40 0 ⟨0, 0, 0⟩ =
        [⟨70, 130, 180⟩, ⟨255, 165, 0⟩, ⟨50, 205, 50⟩,
          (⟨220, 20, 60⟩ : RGB)].getD 1 ⟨0, 0, 0⟩ := by
  obtain ⟨img, himg, h00⟩ := pattern_pixel_formula 200 200
    [⟨70, 130, 180⟩, ⟨255, 165, 0⟩, ⟨50, 205, 50⟩, ⟨220, 20, 60⟩] 0 0 ⟨0, 0, 0⟩
    (by decide) (by decide) (by decide)
  obtain ⟨img2, himg2, h39⟩ := pattern_pixel_formula 200 200
    [⟨70, 130, 180⟩, ⟨255, 165, 0⟩, ⟨50, 205, 50⟩, ⟨220, 20, 60⟩] 39 39 ⟨0, 0, 0⟩
    (by decide) (by decide) (by decide)
  obtain ⟨img3, himg3, h40⟩ := pattern_pixel_formula 200 200
    [⟨70, 130, 180⟩, ⟨255, 165, 0⟩, ⟨50, 205, 50⟩, ⟨220, 20, 60⟩] 40 0 ⟨0, 0, 0⟩
    (by decide) (by decide) (by decide)
  have e2 : img2 = img := Option.some.inj (himg2.symm.trans himg)
  have e3 : img3 = img := Option.some.inj (himg3.symm.trans himg)
  rw [e2] at h39
  rw [e3] at h40
  exact ⟨img, himg, h00.trans h39.symm, h40⟩

/-- C10: the tiled-pattern generator is total exactly when the unstated
precondition holds — with a non-empty colour list every computed index is a
valid index into `colors` and the generator returns a result, while an empty
colour list with at least one pixel leaves the result undefined (the modulus
by `len(colors) = 0` is unguarded in the source). -/
theorem pattern_colors_precondition (w h : Nat) (colors : List RGB) (x y : Nat) :
    (colors ≠ [] →
      ((x / 40) + (y / 40)) % colors.length < colors.length ∧
        (create_pattern_image w h colors).isSome) ∧
    (colors = [] → 0 < w → 0 < h → create_pattern_image w h colors = none) := by
  constructor
  · intro hc
    have hlen : 0 < colors.length := List.length_pos.mpr hc
    refine ⟨Nat.mod_lt _ hlen, ?_⟩
    rw [create_pattern_image, if_neg (by intro hg; omega)]
    rfl
  · intro hc hw hh
    rw [create_pattern_image, if_pos ⟨by rw [hc]; rfl, hw, hh⟩]

/-- C10 witness: a one-colour list gives a valid index and a defined 3×3
image; the empty list with a 3×3 image gives no result. -/
theorem pattern_colors_precondition_witness :
    ((((5 : Nat) / 40) + ((7 : Nat) / 40)) % [(⟨1, 2, 3⟩ : RGB)].length
        < [(⟨1, 2, 3⟩ : RGB)].length ∧
      (create_pattern_image 3 3 [(⟨1, 2, 3⟩ : RGB)]).isSome) ∧
    create_pattern_image 3 3 ([] : List RGB) = none :=
  ⟨(pattern_colors_precondition 3 3 [(⟨1, 2, 3⟩ : RGB)] 5 7).1 (by decide),
    (pattern_colors_precondition 3 3 [] 5 7).2 rfl (by decide) (by decide)⟩

/-- C7 counterexample: a zero-height request succeeds with an empty pixel
buffer instead of failing with `InvalidDimensions` (the generators validate
no dimensions), and the pattern generator has a failure at fully positive
dimensions (empty colour list), so invalid dimensions are not the only
error path either. -/
theorem invalid_dimensions_counterexample :
    create_pattern_image 10 0 [(⟨70, 130, 180⟩ : RGB)] = some [] ∧
    create_gradient_image 10 0 ⟨0, 0, 0⟩ ⟨255, 255, 255⟩ "horizontal" = [] ∧
    create_pattern_image 1 1 ([] : List RGB) = none := by
  refine ⟨?_, rfl, ?_⟩
  · rw [create_pattern_image, if_neg (by decide)]
    rfl
  · rw [create_pattern_image, if_pos (by decide)]

/-- C7 as amended: the generators perform no dimension validation — a request
with zero width or height succeeds with an empty pixel buffer, the gradient
generator always succeeds (it is total), and the pattern generator's only
failure is the empty colour list combined with at least one pixel, an error
path unrelated to dimensions. -/
theorem generators_no_dimension_validation (w h : Nat) (c1 c2 : RGB)
    (direction : String) (colors : List RGB) :
    (create_gradient_image w h c1 c2 direction).length = h ∧
    ((create_pattern_image w h colors).isSome ↔
      (colors ≠ [] ∨ w = 0 ∨ h = 0)) := by
  constructor
  · rw [create_gradient_image]
    simp
  · by_cases hg : colors.length = 0 ∧ 0 < w ∧ 0 < h
    · rw [create_pattern_image, if_pos hg]
      refine ⟨fun hfalse => Bool.noConfusion hfalse, fun hor => ?_⟩
      rcases hor with hc | hw | hh
      · exact absurd (List.eq_nil_of_length_eq_zero hg.1) hc
      · exact absurd hg.2.1 (by omega)
      · exact absurd hg.2.2 (by omega)
    · rw [create_pattern_image, if_neg hg]
      refine ⟨fun _ => ?_, fun _ => rfl⟩
      by_cases hc : colors = []
      · subst hc
        rcases Nat.eq_zero_or_pos w with hw | hw
        · exact Or.inr (Or.inl hw)
        · rcases Nat.eq_zero_or_pos h with hh | hh
          · exact Or.inr (Or.inr hh)
          · exact absurd ⟨rfl, hw, hh⟩ hg
      · exact Or.inl hc

end VibOS

namespace VibOS

/-! ## Concrete evaluation checks of the embedding -/

example : hex2 10 = "0a" := by decide
example : hex2 255 = "ff" := by decide
example : hex2 0 = "00" := by decide
example : basename "kernel/media/x.jpg" = "x.jpg" := by decide
example : basename "x.jpg" = "x.jpg" := by decide
example : (chunks16 (List.range 20)).map List.length = [16, 4] := by decide
example :
    (generate_header (fun _ => some [0, 255]) "dir/x.jpg" "v").map render =
      some ("/* Auto-generated from x.jpg */\nconst unsigned char v[] = \x7b\n    0x00, 0xff,\n\x7d;\n\nconst unsigned int v_len = 2;\n") := by decide
example : truncInt (7 / 2 : Rat) = 3 := by
  norm_num [truncInt, Int.floor_eq_iff]
example : truncInt (-(7 / 2) : Rat) = -3 := by
  norm_num [truncInt, Int.ceil_eq_iff]
example :
    (create_pattern_image 81 81 [⟨1, 1, 1⟩, ⟨2, 2, 2⟩, ⟨3, 3, 3⟩]).map
      (fun img => [pixelAt img 0 0 ⟨0,0,0⟩, pixelAt img 40 0 ⟨0,0,0⟩, pixelAt img 80 80 ⟨0,0,0⟩])
      = some [⟨1,1,1⟩, ⟨2,2,2⟩, ⟨2,2,2⟩] := by decide

end VibOS
